import Mathlib

/-!
# mcontrol: angle model and controller parameters

A shallow embedding of `angles.h`, `controller.h` and `defaults.cpp` of mcontrol
(declination axis control for a radiotelescope), with the properties of the
angle arithmetic, the safety arc and the motor duty/stall rules.

`typedef float degrees;` is modelled in exact arithmetic over the rationals:
every finite `float` is a rational number, and the model computes without
rounding.  The static data members of `CookedAngle` and `UserAngle` are carried
in an explicit record (`AngleStatics`) that the setters transform.
-/

namespace MControl

/-! ## angles.h -/

/-- The `degrees` typedef (`typedef float degrees;`), in exact rational arithmetic. -/
abbrev degrees := ℚ

/-- Modelled from the spec: the body of `mod360` (angles.h only declares
`degrees mod360(degrees value);`).  It maps any finite input into `[0, 360)`,
handling negative inputs and multiples of 360: the value minus 360 times the
number of whole turns below it. -/
def mod360 (value : degrees) : degrees :=
  value - 360 * ((⌊value / 360⌋ : ℤ) : ℚ)

/-- The class `RawAngle`: a bare value; the constructor `RawAngle(degrees value) : val(value)`
stores its argument as it is. -/
structure RawAngle where
  val : degrees
  deriving DecidableEq

namespace RawAngle

/-- The operator `RawAngle::operator+(const degrees& deg) const`:
`return RawAngle(mod360(val + deg));`. -/
def add (self : RawAngle) (deg : degrees) : RawAngle :=
  RawAngle.mk (mod360 (self.val + deg))

end RawAngle

/-- The derived angle kinds that instantiate the `Angle` template. -/
inductive AngleKind where
  | Cooked
  | User
  deriving DecidableEq

/-- The template `template <class DerivedAngle> class Angle`: one `degrees` member `val`;
the kind index keeps values of different kinds apart, as the template parameter does. -/
structure Angle (DerivedAngle : AngleKind) where
  val : degrees
  deriving DecidableEq

namespace Angle

variable {DerivedAngle : AngleKind}

/-- The operator `operator>(const DerivedAngle& other)`: `val > other.val`. -/
def gt (self other : Angle DerivedAngle) : Bool := decide (self.val > other.val)

/-- The operator `operator<(const DerivedAngle& other)`: `val < other.val`. -/
def lt (self other : Angle DerivedAngle) : Bool := decide (self.val < other.val)

/-- The operator `operator>=(const DerivedAngle& other)`: `val >= other.val`. -/
def ge (self other : Angle DerivedAngle) : Bool := decide (self.val ≥ other.val)

/-- The operator `operator<=(const DerivedAngle& other)`: `val <= other.val`. -/
def le (self other : Angle DerivedAngle) : Bool := decide (self.val ≤ other.val)

/-- The operator `degrees operator-(const DerivedAngle& other)`: the difference
`val - other.val` in degrees. -/
def diff (self other : Angle DerivedAngle) : degrees := self.val - other.val

/-- The operator `DerivedAngle operator+(const degrees& deg)`: `DerivedAngle(val + deg)`. -/
def add (self : Angle DerivedAngle) (deg : degrees) : Angle DerivedAngle :=
  Angle.mk (self.val + deg)

/-- The operator `DerivedAngle operator-(const degrees& deg)`: `DerivedAngle(val - deg)`. -/
def sub (self : Angle DerivedAngle) (deg : degrees) : Angle DerivedAngle :=
  Angle.mk (self.val - deg)

end Angle

/-- The class `CookedAngle : public Angle<CookedAngle>`. -/
abbrev CookedAngle := Angle AngleKind.Cooked

/-- The class `UserAngle : public Angle<UserAngle>`. -/
abbrev UserAngle := Angle AngleKind.User

/-- The static data members of `CookedAngle` (`linCoeffs`, `hardwareOrigin`, `offset`,
`inverted`, `minimumSafeAngle`, `maximumSafeAngle`) and of `UserAngle` (`userOrigin`). -/
structure AngleStatics where
  linCoeffs : List ℚ
  hardwareOrigin : RawAngle
  offset : degrees
  inverted : Bool
  minimumSafeAngle : CookedAngle
  maximumSafeAngle : CookedAngle
  userOrigin : CookedAngle

/-- The statics before any setter has run: everything zero. -/
def AngleStatics.initial : AngleStatics :=
  { linCoeffs := [], hardwareOrigin := RawAngle.mk 0, offset := 0, inverted := false,
    minimumSafeAngle := Angle.mk 0, maximumSafeAngle := Angle.mk 0, userOrigin := Angle.mk 0 }

/-- Modelled from the spec: the body of `CookedAngle::setSafeLimits(min, max)` (angles.h only
declares it): the forbidden arc is defined once per axis by storing the two limits. -/
def CookedAngle.setSafeLimits (st : AngleStatics) (min max : CookedAngle) : AngleStatics :=
  { st with minimumSafeAngle := min, maximumSafeAngle := max }

/-- The inline `CookedAngle::getMinimum()`: `return minimumSafeAngle;`. -/
def CookedAngle.getMinimum (st : AngleStatics) : CookedAngle := st.minimumSafeAngle

/-- The inline `CookedAngle::getMaximum()`: `return maximumSafeAngle;`. -/
def CookedAngle.getMaximum (st : AngleStatics) : CookedAngle := st.maximumSafeAngle

/-- Modelled from the spec: modular arc containment, the test behind `isSafe` (its body is
not in the headers).  The angle lies on the arc travelled going from `min` forward
(increasing, wrapping) to `max` when its forward distance from `min` does not exceed the
forward distance from `min` to `max`. -/
def CookedAngle.onForbiddenArc (st : AngleStatics) (self : CookedAngle) : Bool :=
  decide (mod360 (self.val - (CookedAngle.getMinimum st).val)
    ≤ mod360 ((CookedAngle.getMaximum st).val - (CookedAngle.getMinimum st).val))

/-- Modelled from the spec: the body of `CookedAngle::isSafe()` (angles.h only declares it):
the angle does NOT lie on the arc travelled going from `min` forward to `max`. -/
def CookedAngle.isSafe (st : AngleStatics) (self : CookedAngle) : Bool :=
  !CookedAngle.onForbiddenArc st self

/-- Modelled from the spec: the body of `UserAngle::setOrigin(origin)` (angles.h only declares
it): stores the point where the user scale reads zero. -/
def UserAngle.setOrigin (st : AngleStatics) (origin : CookedAngle) : AngleStatics :=
  { st with userOrigin := origin }

/-- Modelled from the spec: the body of the constructor `UserAngle::UserAngle(const CookedAngle)`
(angles.h only declares it): `user.val = mod360(cooked.val − userOrigin.val)`, renormalized
into the signed display range `[-origin, 360 − origin)` by subtracting 360 when the modular
result exceeds that range.  The range is half-open, so a modular result equal to
`360 − origin` is outside it and is reduced as well. -/
def UserAngle.ofCooked (st : AngleStatics) (cooked : CookedAngle) : UserAngle :=
  let m := mod360 (cooked.val - st.userOrigin.val)
  if 360 - st.userOrigin.val ≤ m then Angle.mk (m - 360) else Angle.mk m

/-- Modelled from the spec: the body of the constructor `CookedAngle::CookedAngle(const UserAngle)`
(angles.h only declares it): a user angle is a cooked angle shifted by the user origin, and the
way back undoes the shift.  The spec gives no further formula for this direction. -/
def CookedAngle.ofUser (st : AngleStatics) (user : UserAngle) : CookedAngle :=
  Angle.mk (user.val + st.userOrigin.val)

/-- Modelled from the spec: the body of `UserAngle::isSafe()` (angles.h only declares it):
it delegates to the equivalent cooked angle. -/
def UserAngle.isSafe (st : AngleStatics) (self : UserAngle) : Bool :=
  CookedAngle.isSafe st (CookedAngle.ofUser st self)

/-! ## controller.h -/

/-- The enum `ControllerParams::IndicatorStyle`. -/
inductive IndicatorStyle where
  | Bar
  | Percent
  deriving DecidableEq

/-- The struct `ControllerParams`, with the member initializers of controller.h as field
defaults.  `unsigned short` members are naturals, `std::chrono::milliseconds` members are
counts of milliseconds; the float literal `0.1` is taken as the rational 1/10. -/
structure ControllerParams where
  minDuty : ℕ := 10
  maxDuty : ℕ := 100
  invertMotorPolarity : Bool := false
  stallCheckPeriod : ℕ := 1000
  stallThreshold : degrees := 0
  destallDuty : ℕ := 0
  destallDuration : ℕ := 0
  parkPosition : CookedAngle := Angle.mk 0
  accelAngle : degrees := 20
  tolerance : degrees := 1 / 10
  loopDelay : ℕ := 10
  indicatorStyle : IndicatorStyle := IndicatorStyle.Bar

/-- The enum `Controller::MotorStatus`. -/
inductive MotorStatus where
  | Undetermined
  | OK
  | Stalled
  | WrongDirection
  deriving DecidableEq

/-- The data members of `Controller` that the slew logic reads (the `Motor*` and `Sensor*`
handles are external collaborators); `stallCheckTime` is a millisecond count. -/
structure Controller where
  params : ControllerParams
  stallCheckAngle : CookedAngle := Angle.mk 0
  stallCheckTime : ℕ := 0

/-- Modelled from the spec: the displacement since the last stall check, measured along the
commanded direction (the sign of `wantedDirection`); part of the absent body of
`Controller::checkMotor`. -/
def displacementAlong (displacement : degrees) (wantedDirection : ℚ) : degrees :=
  if wantedDirection < 0 then -displacement else displacement

/-- Modelled from the spec: the rule for `OK` in the absent body of `Controller::checkMotor`:
the displacement since the last check is in the commanded direction and exceeds
`stallThreshold`. -/
def ruleOK (stallThreshold displacement : degrees) (wantedDirection : ℚ) : Prop :=
  0 < displacementAlong displacement wantedDirection ∧ stallThreshold < |displacement|

/-- Modelled from the spec: the rule for `Stalled` in the absent body of
`Controller::checkMotor`: the displacement magnitude is below `stallThreshold`. -/
def ruleStalled (stallThreshold displacement : degrees) : Prop :=
  |displacement| < stallThreshold

/-- Modelled from the spec: the rule for `WrongDirection` in the absent body of
`Controller::checkMotor`: the displacement is in the direction opposite to the commanded one
and exceeds `stallThreshold`. -/
def ruleWrongDirection (stallThreshold displacement : degrees) (wantedDirection : ℚ) : Prop :=
  displacementAlong displacement wantedDirection < 0 ∧ stallThreshold < |displacement|

instance (t d : degrees) (w : ℚ) : Decidable (ruleOK t d w) := by
  unfold ruleOK; infer_instance

instance (t d : degrees) : Decidable (ruleStalled t d) := by
  unfold ruleStalled; infer_instance

instance (t d : degrees) (w : ℚ) : Decidable (ruleWrongDirection t d w) := by
  unfold ruleWrongDirection; infer_instance

/-- Modelled from the spec: the status transitions of the stall check (the absent body of
`Controller::checkMotor`), on the displacement since the last check: each rule that applies
moves the status from `Undetermined`, where it stays when none applies. -/
def classifyDisplacement (stallThreshold displacement : degrees) (wantedDirection : ℚ) :
    MotorStatus :=
  if ruleOK stallThreshold displacement wantedDirection then MotorStatus.OK
  else if ruleStalled stallThreshold displacement then MotorStatus.Stalled
  else if ruleWrongDirection stallThreshold displacement wantedDirection then
    MotorStatus.WrongDirection
  else MotorStatus.Undetermined

/-- Modelled from the spec: `Controller::checkMotor(currentAngle, wantedDirection)` (controller.h
only declares it), at a moment when a stall-check period has elapsed: the displacement is
the difference between the current angle and the angle of the last check. -/
def Controller.checkMotor (self : Controller) (currentAngle : CookedAngle)
    (wantedDirection : ℚ) : MotorStatus :=
  classifyDisplacement self.params.stallThreshold
    (Angle.diff currentAngle self.stallCheckAngle) wantedDirection

/-- Modelled from the spec: the sign of the commanded duty in the absent body of
`Controller::slew`: it follows the sign of delta, adjusted for `invertMotorPolarity`. -/
def dutyDirection (params : ControllerParams) (delta : degrees) : ℚ :=
  let s : ℚ := if delta < 0 then -1 else 1
  if params.invertMotorPolarity then -s else s

/-- Modelled from the spec: the enforcement before dispatch in the absent body of
`Controller::slew`: a duty magnitude is clamped to `[minDuty, maxDuty]`. -/
def clampDuty (params : ControllerParams) (duty : ℚ) : ℚ :=
  max (params.minDuty : ℚ) (min (params.maxDuty : ℚ) duty)

/-- Modelled from the spec: the magnitude of the commanded duty in the absent body of
`Controller::slew`: a ramp proportional to `|delta|` over the final `accelAngle` degrees of
travel (linear taper), clamped to `[minDuty, maxDuty]`. -/
def taperedDuty (params : ControllerParams) (delta : degrees) : ℚ :=
  clampDuty params ((params.maxDuty : ℚ) * |delta| / params.accelAngle)

/-- Modelled from the spec: the signed duty that `Controller::slew` issues to the motor at a
remaining delta. -/
def slewDuty (params : ControllerParams) (delta : degrees) : ℚ :=
  dutyDirection params delta * taperedDuty params delta

/-- Modelled from the spec: the destall pulse of `Controller::slew`: the motor is driven at
`destallDuty` in the reverse direction, the magnitude being enforced into
`[minDuty, maxDuty]` before dispatch like that of every duty. -/
def destallPulse (params : ControllerParams) (delta : degrees) : ℚ :=
  -(dutyDirection params delta) * clampDuty params (params.destallDuty : ℚ)

/-! ## defaults.cpp -/

/-- The global `cparams` of defaults.cpp.  Its initializer assigns members of `cparams`
itself and returns it, so the member initializers of controller.h never run: the members it
assigns (`accelAngle`, `minDuty`, `maxDuty`, `invertMotorPolarity`, `tolerance`, `loopDelay`)
have the assigned values and every other member keeps the zero of static initialization. -/
def cparams : ControllerParams :=
  { minDuty := 15, maxDuty := 30, invertMotorPolarity := false, stallCheckPeriod := 0,
    stallThreshold := 0, destallDuty := 0, destallDuration := 0, parkPosition := Angle.mk 0,
    accelAngle := 20, tolerance := 1 / 10, loopDelay := 10,
    indicatorStyle := IndicatorStyle.Bar }

/-- The angle settings that the initializer of `cparams` in defaults.cpp assigns:
`hardwareOrigin = RawAngle(250 - 20)`, `inverted = false`, `userOrigin = CookedAngle(20)`,
and the safe limits `minimumSafeAngle = CookedAngle(335)`, `maximumSafeAngle = CookedAngle(315)`. -/
def defaultStatics : AngleStatics :=
  CookedAngle.setSafeLimits
    (UserAngle.setOrigin
      { AngleStatics.initial with hardwareOrigin := RawAngle.mk (250 - 20), inverted := false }
      (Angle.mk 20))
    (Angle.mk 335) (Angle.mk 315)

/-! ## Properties of `mod360` -/

/-- The result of `mod360` is the only value in `[0, 360)` that differs from the input by a
whole number of turns. -/
theorem mod360_eq_of_turns (x r : degrees) (k : ℤ) (h0 : 0 ≤ r) (h1 : r < 360)
    (hx : x = r + 360 * (k : ℚ)) : mod360 x = r := by
  have hk : ⌊x / 360⌋ = k := by
    rw [Int.floor_eq_iff]
    constructor
    · rw [le_div_iff₀ (by norm_num : (0 : ℚ) < 360)]; linarith
    · rw [div_lt_iff₀ (by norm_num : (0 : ℚ) < 360)]; linarith
  unfold mod360
  rw [hk]; linarith

theorem mod360_nonneg (x : degrees) : 0 ≤ mod360 x := by
  have h := Int.floor_le (x / 360)
  rw [le_div_iff₀ (by norm_num : (0 : ℚ) < 360)] at h
  unfold mod360; linarith

theorem mod360_lt (x : degrees) : mod360 x < 360 := by
  have h := Int.lt_floor_add_one (x / 360)
  rw [div_lt_iff₀ (by norm_num : (0 : ℚ) < 360)] at h
  unfold mod360; linarith

theorem mod360_of_mem (x : degrees) (h0 : 0 ≤ x) (h1 : x < 360) : mod360 x = x :=
  mod360_eq_of_turns x x 0 h0 h1 (by simp)

theorem mod360_of_neg (x : degrees) (h0 : -360 ≤ x) (h1 : x < 0) : mod360 x = x + 360 :=
  mod360_eq_of_turns x (x + 360) (-1) (by linarith) (by linarith) (by push_cast; ring)

theorem mod360_sub_of_mem (a m : degrees) (ha0 : 0 ≤ a) (ha1 : a < 360) (hm0 : 0 ≤ m)
    (hm1 : m < 360) : mod360 (a - m) = if m ≤ a then a - m else a - m + 360 := by
  split_ifs with h
  · exact mod360_of_mem _ (by linarith) (by linarith)
  · push_neg at h
    exact mod360_of_neg _ (by linarith) (by linarith)

/-- The modular arc test, for limits and angle in `[0, 360)`, in terms of plain comparisons. -/
theorem onForbiddenArc_iff (st : AngleStatics) (a : CookedAngle)
    (hmin0 : 0 ≤ st.minimumSafeAngle.val) (hmin1 : st.minimumSafeAngle.val < 360)
    (hmax0 : 0 ≤ st.maximumSafeAngle.val) (hmax1 : st.maximumSafeAngle.val < 360)
    (ha0 : 0 ≤ a.val) (ha1 : a.val < 360) :
    CookedAngle.onForbiddenArc st a = true ↔
      ((st.minimumSafeAngle.val ≤ st.maximumSafeAngle.val →
          st.minimumSafeAngle.val ≤ a.val ∧ a.val ≤ st.maximumSafeAngle.val)
        ∧ (st.maximumSafeAngle.val < st.minimumSafeAngle.val →
          st.minimumSafeAngle.val ≤ a.val ∨ a.val ≤ st.maximumSafeAngle.val)) := by
  unfold CookedAngle.onForbiddenArc CookedAngle.getMinimum CookedAngle.getMaximum
  rw [decide_eq_true_iff, mod360_sub_of_mem _ _ ha0 ha1 hmin0 hmin1,
    mod360_sub_of_mem _ _ hmax0 hmax1 hmin0 hmin1]
  by_cases h1 : st.minimumSafeAngle.val ≤ a.val <;>
    by_cases h2 : st.minimumSafeAngle.val ≤ st.maximumSafeAngle.val
  · rw [if_pos h1, if_pos h2]
    constructor
    · intro h
      exact ⟨fun _ => ⟨h1, by linarith⟩, fun _ => Or.inl h1⟩
    · rintro ⟨h, -⟩
      linarith [(h h2).2]
  · rw [if_pos h1, if_neg h2]
    constructor
    · intro _
      exact ⟨fun h => absurd h h2, fun _ => Or.inl h1⟩
    · intro _
      linarith
  · rw [if_neg h1, if_pos h2]
    constructor
    · intro h
      linarith
    · rintro ⟨h, -⟩
      exact absurd (h h2).1 h1
  · rw [if_neg h1, if_neg h2]
    constructor
    · intro h
      exact ⟨fun h3 => absurd h3 h2, fun _ => Or.inr (by linarith)⟩
    · rintro ⟨-, h⟩
      rcases h (not_le.mp h2) with h3 | h3
      · exact absurd h3 h1
      · linarith

/-- The user value of a cooked angle, for origin and angle in `[0, 360)`, is the plain
difference of the two. -/
theorem ofCooked_val (st : AngleStatics) (c : CookedAngle)
    (ho0 : 0 ≤ st.userOrigin.val) (ho1 : st.userOrigin.val < 360)
    (hc0 : 0 ≤ c.val) (hc1 : c.val < 360) :
    (UserAngle.ofCooked st c).val = c.val - st.userOrigin.val := by
  unfold UserAngle.ofCooked
  simp only [mod360_sub_of_mem _ _ hc0 hc1 ho0 ho1]
  by_cases h1 : st.userOrigin.val ≤ c.val
  · rw [if_pos h1, if_neg (by linarith)]
  · rw [if_neg h1, if_pos (by linarith)]
    show c.val - st.userOrigin.val + 360 - 360 = c.val - st.userOrigin.val
    linarith

theorem ofCooked_val_eq_ite (st : AngleStatics) (c : CookedAngle) :
    (UserAngle.ofCooked st c).val =
      if 360 - st.userOrigin.val ≤ mod360 (c.val - st.userOrigin.val)
      then mod360 (c.val - st.userOrigin.val) - 360 else mod360 (c.val - st.userOrigin.val) := by
  unfold UserAngle.ofCooked
  simp only
  split_ifs <;> rfl

theorem abs_dutyDirection (params : ControllerParams) (delta : degrees) :
    |dutyDirection params delta| = 1 := by
  unfold dutyDirection
  split_ifs <;> simp

theorem abs_slewDuty (params : ControllerParams) (delta : degrees) :
    |slewDuty params delta| = taperedDuty params delta := by
  have h0 : (0 : ℚ) ≤ taperedDuty params delta :=
    le_trans (Nat.cast_nonneg _) (le_max_left _ _)
  unfold slewDuty
  rw [abs_mul, abs_dutyDirection, one_mul, abs_of_nonneg h0]

theorem clampDuty_mem (params : ControllerParams) (duty : ℚ)
    (h : params.minDuty ≤ params.maxDuty) :
    (params.minDuty : ℚ) ≤ clampDuty params duty ∧ clampDuty params duty ≤ (params.maxDuty : ℚ) :=
  ⟨le_max_left _ _, max_le (by exact_mod_cast h) (min_le_left _ _)⟩

theorem abs_destallPulse (params : ControllerParams) (delta : degrees) :
    |destallPulse params delta| = clampDuty params (params.destallDuty : ℚ) := by
  have h0 : (0 : ℚ) ≤ clampDuty params (params.destallDuty : ℚ) :=
    le_trans (Nat.cast_nonneg _) (le_max_left _ _)
  unfold destallPulse
  rw [abs_mul, abs_neg, abs_dutyDirection, one_mul, abs_of_nonneg h0]

/-! ## Claims -/

/-- C2: `mod360` returns the canonical representative: the result lies in `[0, 360)`, differs
from the input by an integer multiple of 360 (and is the only such value), so it is
idempotent; `mod360(-10) = 350`, `mod360(360) = 0`, `mod360(720.5) = 0.5`. -/
theorem mod360_canonical :
    (∀ x : degrees, 0 ≤ mod360 x ∧ mod360 x < 360 ∧ (∃ k : ℤ, x - mod360 x = 360 * (k : ℚ))
      ∧ (∀ r : degrees, 0 ≤ r → r < 360 → (∃ k : ℤ, x - r = 360 * (k : ℚ)) → r = mod360 x)
      ∧ mod360 (mod360 x) = mod360 x)
    ∧ mod360 (-10) = 350 ∧ mod360 360 = 0 ∧ mod360 (1441 / 2) = 1 / 2 := by
  refine ⟨fun x => ⟨mod360_nonneg x, mod360_lt x, ⟨⌊x / 360⌋, by unfold mod360; ring⟩, ?_,
    mod360_of_mem _ (mod360_nonneg x) (mod360_lt x)⟩, ?_, ?_, ?_⟩
  · rintro r h0 h1 ⟨k, hk⟩
    exact (mod360_eq_of_turns x r k h0 h1 (by linarith)).symm
  · exact mod360_eq_of_turns _ _ (-1) (by norm_num) (by norm_num) (by norm_num)
  · exact mod360_eq_of_turns _ _ 1 (by norm_num) (by norm_num) (by norm_num)
  · exact mod360_eq_of_turns _ _ 2 (by norm_num) (by norm_num) (by norm_num)

/-- C3: `RawAngle` addition preserves normalization: for every raw angle, whatever its stored
value, and every offset, the value of `raw + d` is `mod360(raw.val + d)` and lies in
`[0, 360)`; the operand is a value that the operator does not change. -/
theorem RawAngle_add_normalized (raw : RawAngle) (d : degrees) :
    (raw.add d).val = mod360 (raw.val + d) ∧ 0 ≤ (raw.add d).val ∧ (raw.add d).val < 360 :=
  ⟨rfl, mod360_nonneg _, mod360_lt _⟩

/-- C1: after `setSafeLimits(min, max)` with `min`, `max` in `[0, 360)`, for every angle in
`[0, 360)`, `isSafe` is false exactly when the angle lies on the arc from `min` forward to
`max` (for `min ≤ max`: `min ≤ a ≤ max`; for `min > max`: `a ≥ min` or `a ≤ max`), and true
otherwise.  With `min = 335`, `max = 315` the angles 340, 0, 10, 300 are unsafe and 320 is
safe; with `min = 100`, `max = 200` the angle 150 is unsafe and 50 and 250 are safe. -/
theorem isSafe_false_iff_on_arc :
    (∀ (st : AngleStatics) (min max a : CookedAngle),
      0 ≤ min.val → min.val < 360 → 0 ≤ max.val → max.val < 360 → 0 ≤ a.val → a.val < 360 →
      ((CookedAngle.isSafe (CookedAngle.setSafeLimits st min max) a = false ↔
          ((min.val ≤ max.val → min.val ≤ a.val ∧ a.val ≤ max.val)
            ∧ (max.val < min.val → min.val ≤ a.val ∨ a.val ≤ max.val)))
        ∧ (CookedAngle.isSafe (CookedAngle.setSafeLimits st min max) a = true ↔
          ¬ ((min.val ≤ max.val → min.val ≤ a.val ∧ a.val ≤ max.val)
            ∧ (max.val < min.val → min.val ≤ a.val ∨ a.val ≤ max.val)))))
    ∧ (∀ st : AngleStatics,
        CookedAngle.isSafe (CookedAngle.setSafeLimits st (Angle.mk 335) (Angle.mk 315))
          (Angle.mk 340) = false
        ∧ CookedAngle.isSafe (CookedAngle.setSafeLimits st (Angle.mk 335) (Angle.mk 315))
          (Angle.mk 0) = false
        ∧ CookedAngle.isSafe (CookedAngle.setSafeLimits st (Angle.mk 335) (Angle.mk 315))
          (Angle.mk 10) = false
        ∧ CookedAngle.isSafe (CookedAngle.setSafeLimits st (Angle.mk 335) (Angle.mk 315))
          (Angle.mk 300) = false
        ∧ CookedAngle.isSafe (CookedAngle.setSafeLimits st (Angle.mk 335) (Angle.mk 315))
          (Angle.mk 320) = true
        ∧ CookedAngle.isSafe (CookedAngle.setSafeLimits st (Angle.mk 100) (Angle.mk 200))
          (Angle.mk 150) = false
        ∧ CookedAngle.isSafe (CookedAngle.setSafeLimits st (Angle.mk 100) (Angle.mk 200))
          (Angle.mk 50) = true
        ∧ CookedAngle.isSafe (CookedAngle.setSafeLimits st (Angle.mk 100) (Angle.mk 200))
          (Angle.mk 250) = true) := by
  have gen : ∀ (st : AngleStatics) (min max a : CookedAngle),
      0 ≤ min.val → min.val < 360 → 0 ≤ max.val → max.val < 360 → 0 ≤ a.val → a.val < 360 →
      ((CookedAngle.isSafe (CookedAngle.setSafeLimits st min max) a = false ↔
          ((min.val ≤ max.val → min.val ≤ a.val ∧ a.val ≤ max.val)
            ∧ (max.val < min.val → min.val ≤ a.val ∨ a.val ≤ max.val)))
        ∧ (CookedAngle.isSafe (CookedAngle.setSafeLimits st min max) a = true ↔
          ¬ ((min.val ≤ max.val → min.val ≤ a.val ∧ a.val ≤ max.val)
            ∧ (max.val < min.val → min.val ≤ a.val ∨ a.val ≤ max.val)))) := by
    intro st min max a hmin0 hmin1 hmax0 hmax1 ha0 ha1
    have key : CookedAngle.onForbiddenArc (CookedAngle.setSafeLimits st min max) a = true ↔
        ((min.val ≤ max.val → min.val ≤ a.val ∧ a.val ≤ max.val)
          ∧ (max.val < min.val → min.val ≤ a.val ∨ a.val ≤ max.val)) :=
      onForbiddenArc_iff (CookedAngle.setSafeLimits st min max) a
        hmin0 hmin1 hmax0 hmax1 ha0 ha1
    unfold CookedAngle.isSafe
    constructor
    · rw [Bool.not_eq_false']; exact key
    · rw [Bool.not_eq_true', ← key, Bool.not_eq_true]
  refine ⟨gen, fun st => ⟨?_, ?_, ?_, ?_, ?_, ?_, ?_, ?_⟩⟩
  · exact (gen st _ _ _ (by norm_num) (by norm_num) (by norm_num) (by norm_num)
      (by norm_num) (by norm_num)).1.mpr (by norm_num)
  · exact (gen st _ _ _ (by norm_num) (by norm_num) (by norm_num) (by norm_num)
      (by norm_num) (by norm_num)).1.mpr (by norm_num)
  · exact (gen st _ _ _ (by norm_num) (by norm_num) (by norm_num) (by norm_num)
      (by norm_num) (by norm_num)).1.mpr (by norm_num)
  · exact (gen st _ _ _ (by norm_num) (by norm_num) (by norm_num) (by norm_num)
      (by norm_num) (by norm_num)).1.mpr (by norm_num)
  · exact (gen st _ _ _ (by norm_num) (by norm_num) (by norm_num) (by norm_num)
      (by norm_num) (by norm_num)).2.mpr (by norm_num)
  · exact (gen st _ _ _ (by norm_num) (by norm_num) (by norm_num) (by norm_num)
      (by norm_num) (by norm_num)).1.mpr (by norm_num)
  · exact (gen st _ _ _ (by norm_num) (by norm_num) (by norm_num) (by norm_num)
      (by norm_num) (by norm_num)).2.mpr (by norm_num)
  · exact (gen st _ _ _ (by norm_num) (by norm_num) (by norm_num) (by norm_num)
      (by norm_num) (by norm_num)).2.mpr (by norm_num)

/-- C1, at an instance: the limits 335 and 315 of defaults.cpp are in `[0, 360)`, and so is
the angle 340, which lies on the arc through 0/360 and is not safe. -/
theorem isSafe_false_iff_on_arc_witness :
    ((0 : ℚ) ≤ 335 ∧ (335 : ℚ) < 360 ∧ (0 : ℚ) ≤ 315 ∧ (315 : ℚ) < 360
        ∧ (0 : ℚ) ≤ 340 ∧ (340 : ℚ) < 360)
      ∧ CookedAngle.isSafe
        (CookedAngle.setSafeLimits AngleStatics.initial (Angle.mk 335) (Angle.mk 315))
        (Angle.mk 340) = false :=
  ⟨by norm_num,
    (isSafe_false_iff_on_arc.1 AngleStatics.initial (Angle.mk 335) (Angle.mk 315) (Angle.mk 340)
      (by norm_num) (by norm_num) (by norm_num) (by norm_num) (by norm_num)
      (by norm_num)).1.mpr (by norm_num)⟩

/-- C4, as stated, fails: the constructor stores its argument, so `RawAngle(400)` has the
value 400, which is not below 360. -/
theorem RawAngle_ctor_out_of_range :
    (RawAngle.mk 400).val = 400
      ∧ ¬ (0 ≤ (RawAngle.mk 400).val ∧ (RawAngle.mk 400).val < 360) := by
  refine ⟨rfl, ?_⟩
  show ¬ ((0 : ℚ) ≤ 400 ∧ (400 : ℚ) < 360)
  norm_num

/-- C4, amended: the constructor `RawAngle(v)` stores `v` unchanged, so its value lies in
`[0, 360)` exactly when `v` does; every `RawAngle` obtained from it by one or more
applications of `operator+` has a value in `[0, 360)`, whatever `v` is. -/
theorem RawAngle_range (v : degrees) :
    (RawAngle.mk v).val = v
      ∧ ((0 ≤ (RawAngle.mk v).val ∧ (RawAngle.mk v).val < 360) ↔ (0 ≤ v ∧ v < 360))
      ∧ (∀ (d : degrees) (ds : List degrees),
          0 ≤ (List.foldl RawAngle.add (RawAngle.mk v) (d :: ds)).val
            ∧ (List.foldl RawAngle.add (RawAngle.mk v) (d :: ds)).val < 360) := by
  refine ⟨rfl, Iff.rfl, ?_⟩
  intro d ds
  have step : ∀ (l : List degrees) (r : RawAngle), 0 ≤ r.val ∧ r.val < 360 →
      0 ≤ (List.foldl RawAngle.add r l).val ∧ (List.foldl RawAngle.add r l).val < 360 := by
    intro l
    induction l with
    | nil => intro r hr; exact hr
    | cons x xs ih =>
      intro r _
      exact ih (r.add x) ⟨mod360_nonneg _, mod360_lt _⟩
  exact step ds ((RawAngle.mk v).add d) ⟨mod360_nonneg _, mod360_lt _⟩

/-- C9: offset arithmetic on `Angle<DerivedAngle>` is not normalized and agrees with
difference and comparison: `(a + d).val = a.val + d`, `(a - d).val = a.val - d`,
`(a + d) - a = d`, and `a > b` holds exactly when `a - b > 0`; `CookedAngle(350) + 20` has
the value 370, outside `[0, 360)`. -/
theorem Angle_offset_arithmetic :
    (∀ (DerivedAngle : AngleKind) (a b : Angle DerivedAngle) (d : degrees),
      (a.add d).val = a.val + d
        ∧ (a.sub d).val = a.val - d
        ∧ (a.add d).diff a = d
        ∧ (a.gt b = true ↔ a.diff b > 0))
    ∧ ((Angle.mk 350 : CookedAngle).add 20).val = 370
    ∧ ¬ (((Angle.mk 350 : CookedAngle).add 20).val < 360) := by
  refine ⟨fun D a b d => ⟨rfl, rfl, ?_, ?_⟩, ?_, ?_⟩
  · simp [Angle.add, Angle.diff]
  · simp [Angle.gt, Angle.diff]
  · simp only [Angle.add]; norm_num
  · simp only [Angle.add]; norm_num

/-- C10: under the shipped defaults the park position is not a safe slew target: with the
safe limits of defaults.cpp (335 and 315) the default `parkPosition`, `CookedAngle(0)`, lies
on the arc from the minimum forward, through 0/360, to the maximum. -/
theorem default_parkPosition_on_forbidden_arc :
    CookedAngle.getMinimum defaultStatics = Angle.mk 335
      ∧ CookedAngle.getMaximum defaultStatics = Angle.mk 315
      ∧ ({} : ControllerParams).parkPosition = Angle.mk 0
      ∧ CookedAngle.onForbiddenArc defaultStatics ({} : ControllerParams).parkPosition = true
      ∧ CookedAngle.isSafe defaultStatics ({} : ControllerParams).parkPosition = false := by
  have h : CookedAngle.onForbiddenArc defaultStatics ({} : ControllerParams).parkPosition
      = true := by
    rw [onForbiddenArc_iff] <;> simp only [defaultStatics, CookedAngle.setSafeLimits] <;> norm_num
  refine ⟨rfl, rfl, rfl, h, ?_⟩
  unfold CookedAngle.isSafe
  rw [h]; rfl

end MControl
